import Mathlib

/-!
Verification development for the quantized-linear autograd layer of
`alpaca_lora_4bit` (source files `autograd_4bit.py` and `Finetune4bConfig.py`).

The Python code is shallowly embedded:
* tensors are symbolic values (`Tensor`): a leaf buffer carries its dtype and
  an abstract description of its contents; every external numeric kernel call
  (`_matmul4bit_v1_recons`, `_matmul4bit_v2_recons`, `_matmul2bit_v2_recons`,
  `triton_matmul`, `triton_matmul_transpose`, `mm4b.matmul4bit`) is an opaque
  constructor, so two computations are equal exactly when they perform the
  same kernel calls on the same arguments;
* Python exceptions are modelled with `Except PyErr`;
* the process-wide mutable globals (`AutogradMatmul4bit`, `AutogradMatmul2bit`,
  `backend`) are explicit state (`BackendState`);
* `nn.Module` trees are the mutual inductives `MTree` / `MChildren`, with
  in-place mutation rendered as value-passing;
* Python `//` on integers is `Int.fdiv` (floor division), `math.ceil(a / b)`
  is `pyCeilDiv`, and Python floats are modelled as rationals.
-/

/-- Tensor element dtypes that appear in the source. -/
inductive DType where
  | float16
  | float32
  | int32
deriving DecidableEq, Repr

/-- torch dtype predicate t.is_floating_point() used by nn.Module.half()/.float(). -/
def DType.isFloatingPoint : DType → Bool
  | .float16 => true
  | .float32 => true
  | .int32 => false

/-- Abstract contents of a leaf buffer: `torch.empty(shape)` (uninitialised),
`torch.tensor([...])` with explicit integer entries (the `g_idx` construction),
or externally supplied contents (e.g. loaded from a checkpoint). -/
inductive BufData where
  | uninit (shape : List Int)
  | intVec (vals : List Int)
  | stored (id : Nat)
deriving DecidableEq, Repr

/-- A leaf tensor buffer: dtype plus abstract contents. -/
structure Buf where
  dtype : DType
  data : BufData
deriving DecidableEq, Repr

/-- Symbolic tensors.  Each external kernel invocation of `autograd_4bit.py` is
a distinct opaque constructor; `clone` and `+ bias` are the only tensor-level
operations the source performs itself. -/
inductive Tensor where
  | ofBuf (b : Buf)
  | mm4v1 (x qweight scales zeros : Tensor) (transpose : Bool)
  | mm4v2 (x qweight scales zeros g_idx : Tensor) (transpose : Bool)
  | mm2v2 (x qweight scales zeros : Tensor) (g_idx : Option Tensor) (transpose : Bool)
  | tritonMM (x qweight scales qzeros : Tensor) (g_idx : Option Tensor) (bits maxq : Nat)
  | tritonMMT (gradOutput qweight scales qzeros : Tensor) (g_idx : Option Tensor) (bits maxq : Nat)
  | mm4direct (x qweight scales qzeros : Tensor) (g_idx : Option Tensor) (groupsize : Int)
  | clone (t : Tensor)
  | addBias (t bias : Tensor)

/-- dtype of a tensor, known only for leaf buffers (sufficient for the one
`assert qzeros.dtype == torch.int32` in the source, whose argument is always a
module buffer). -/
def Tensor.dtypeOf : Tensor → Option DType
  | .ofBuf b => some b.dtype
  | _ => none

/-- Python exceptions raised by the embedded code. -/
inductive PyErr where
  | notImplementedError
  | valueError (msg : String)
  | attributeError
  | assertionError
  | unboundLocalError
deriving DecidableEq, Repr

/-- The 7-slot gradient tuple returned by `backward` (one slot per `forward`
argument `x, qweight, scales, zeros, g_idx, bits, maxq`). -/
structure Grads where
  gradX : Option Tensor
  gradQweight : Option Tensor
  gradScales : Option Tensor
  gradZeros : Option Tensor
  gradGIdx : Option Tensor
  gradBits : Option Tensor
  gradMaxq : Option Tensor

/-- All six weight-side (non-activation) gradient slots are `None`. -/
def Grads.weightSideNone (r : Grads) : Prop :=
  r.gradQweight = none ∧ r.gradScales = none ∧ r.gradZeros = none ∧
  r.gradGIdx = none ∧ r.gradBits = none ∧ r.gradMaxq = none

/-! ## Autograd operators (autograd_4bit.py lines 17-108)

`ctx.save_for_backward` is modelled by returning the saved tuple from
`forward`; `ctx.needs_input_grad[0]` is an explicit boolean argument of
`backward`. -/

/-- `ctx.saved_tensors` of the CUDA variants: `(qweight, scales, zeros, g_idx)`
(`g_idx` may be `None`, as in the v1 path). -/
structure SavedCuda where
  qweight : Tensor
  scales : Tensor
  zeros : Tensor
  g_idx : Option Tensor

/-- `AutogradMatmul4bitCuda.forward` (lines 34-43): kernel matmul choosing the
v1/v2 reconstruction by whether `g_idx` is `None`, then `output.clone()`;
saves `(qweight, scales, zeros, g_idx)`. -/
def AutogradMatmul4bitCuda_forward (x qweight scales zeros : Tensor)
    (g_idx : Option Tensor) : Tensor × SavedCuda :=
  let output : Tensor :=
    match g_idx with
    | none => .mm4v1 x qweight scales zeros false
    | some gi => .mm4v2 x qweight scales zeros gi false
  (.clone output, ⟨qweight, scales, zeros, g_idx⟩)

/-- `AutogradMatmul4bitCuda.backward` (lines 45-54).  The local `grad` is
assigned only under `if ctx.needs_input_grad[0]:`; when that flag is false the
`return grad, ...` line reads an unbound local and raises. -/
def AutogradMatmul4bitCuda_backward (ctx : SavedCuda) (needsInputGrad0 : Bool)
    (gradOutput : Tensor) : Except PyErr Grads :=
  if needsInputGrad0 then
    let grad : Tensor :=
      match ctx.g_idx with
      | none => .mm4v1 gradOutput ctx.qweight ctx.scales ctx.zeros true
      | some gi => .mm4v2 gradOutput ctx.qweight ctx.scales ctx.zeros gi true
    .ok ⟨some grad, none, none, none, none, none, none⟩
  else
    .error .unboundLocalError

/-- `AutogradMatmul2bitCuda.forward` (lines 58-64). -/
def AutogradMatmul2bitCuda_forward (x qweight scales zeros : Tensor)
    (g_idx : Option Tensor) : Tensor × SavedCuda :=
  (.clone (.mm2v2 x qweight scales zeros g_idx false), ⟨qweight, scales, zeros, g_idx⟩)

/-- `AutogradMatmul2bitCuda.backward` (lines 66-72): same unbound-local pattern
as the 4-bit CUDA variant. -/
def AutogradMatmul2bitCuda_backward (ctx : SavedCuda) (needsInputGrad0 : Bool)
    (gradOutput : Tensor) : Except PyErr Grads :=
  if needsInputGrad0 then
    let grad : Tensor := .mm2v2 gradOutput ctx.qweight ctx.scales ctx.zeros ctx.g_idx true
    .ok ⟨some grad, none, none, none, none, none, none⟩
  else
    .error .unboundLocalError

/-- Saved context of the Triton variant: `(qweight, scales, qzeros, g_idx)`
plus `ctx.bits, ctx.maxq`. -/
structure SavedTriton where
  qweight : Tensor
  scales : Tensor
  qzeros : Tensor
  g_idx : Option Tensor
  bits : Nat
  maxq : Nat

/-- `AutogradMatmul4bitTriton.forward` (lines 85-92). -/
def AutogradMatmul4bitTriton_forward (x qweight scales qzeros : Tensor)
    (g_idx : Option Tensor) (bits maxq : Nat) : Tensor × SavedTriton :=
  (.clone (.tritonMM x qweight scales qzeros g_idx bits maxq),
   ⟨qweight, scales, qzeros, g_idx, bits, maxq⟩)

/-- `AutogradMatmul4bitTriton.backward` (lines 94-103): `grad_input` is
initialised to `None`, so this variant never raises. -/
def AutogradMatmul4bitTriton_backward (ctx : SavedTriton) (needsInputGrad0 : Bool)
    (gradOutput : Tensor) : Grads :=
  let grad_input : Option Tensor :=
    if needsInputGrad0 then
      some (.tritonMMT gradOutput ctx.qweight ctx.scales ctx.qzeros ctx.g_idx ctx.bits ctx.maxq)
    else
      none
  ⟨grad_input, none, none, none, none, none, none⟩

/-- The kernel transpose-multiply of the 4-bit CUDA backend (§4.2
`matmul_transpose`): the v1/v2 reconstruction with `transpose=True`. -/
def cudaMatmulTranspose4 (gradOutput qweight scales zeros : Tensor)
    (g_idx : Option Tensor) : Tensor :=
  match g_idx with
  | none => .mm4v1 gradOutput qweight scales zeros true
  | some gi => .mm4v2 gradOutput qweight scales zeros gi true

/-- The kernel transpose-multiply of the 2-bit CUDA backend. -/
def cudaMatmulTranspose2 (gradOutput qweight scales zeros : Tensor)
    (g_idx : Option Tensor) : Tensor :=
  .mm2v2 gradOutput qweight scales zeros g_idx true

/-- The kernel transpose-multiply of the Triton backend. -/
def tritonMatmulTransposeKernel (gradOutput qweight scales qzeros : Tensor)
    (g_idx : Option Tensor) (bits maxq : Nat) : Tensor :=
  .tritonMMT gradOutput qweight scales qzeros g_idx bits maxq

/-! ## Backend registry (autograd_4bit.py lines 13-14, 111-160)

The module-level globals `AutogradMatmul4bit`, `AutogradMatmul2bit` and
`backend`, together with the import-time availability flags, form the explicit
state `BackendState`.  `is_gptq_backend_available` / `is_triton_backend_available`
test whether the corresponding class was defined at import time, which is
exactly the corresponding `*_backend_loaded` flag. -/

/-- Which autograd operator class a module-level binding refers to. -/
inductive AutogradOp where
  | notImplemented
  | cuda4bit
  | cuda2bit
  | triton4bit
deriving DecidableEq, Repr

/-- The process-wide mutable state of `autograd_4bit.py`. -/
structure BackendState where
  gptq_backend_loaded : Bool
  triton_backend_loaded : Bool
  autogradMatmul4bit : AutogradOp
  autogradMatmul2bit : AutogradOp
  backend : Option String
deriving DecidableEq, Repr

/-- `is_gptq_backend_available` (lines 115-116). -/
def is_gptq_backend_available (st : BackendState) : Bool :=
  st.gptq_backend_loaded

/-- `is_triton_backend_available` (lines 111-112). -/
def is_triton_backend_available (st : BackendState) : Bool :=
  st.triton_backend_loaded

/-- Import-time initialisation of the three globals (lines 119-130), as a
function of which backend imports succeeded. -/
def initBackendState (gptqLoaded tritonLoaded : Bool) : BackendState :=
  if gptqLoaded then
    ⟨gptqLoaded, tritonLoaded, .cuda4bit, .cuda2bit, some "cuda"⟩
  else if tritonLoaded then
    ⟨gptqLoaded, tritonLoaded, .triton4bit, .notImplemented, some "triton"⟩
  else
    ⟨gptqLoaded, tritonLoaded, .notImplemented, .notImplemented, none⟩

/-- `switch_backend_to` (lines 133-150): rebinds `AutogradMatmul4bit` and
`backend`; raises `ValueError` for an unavailable or unknown backend name. -/
def switch_backend_to (st : BackendState) (to_backend : String) :
    Except PyErr BackendState :=
  if to_backend = "cuda" then
    if is_gptq_backend_available st = false then
      .error (.valueError "quant_cuda not found. Please reinstall with pip install .")
    else
      .ok { st with autogradMatmul4bit := .cuda4bit, backend := some "cuda" }
  else if to_backend = "triton" then
    if is_triton_backend_available st = false then
      .error (.valueError "Triton not found. Please install triton")
    else
      .ok { st with autogradMatmul4bit := .triton4bit, backend := some "triton" }
  else
    .error (.valueError "Backend not supported.")

/-- `matmul4bit_with_backend` (lines 153-160): the direct (non-autograd)
kernel path, dispatching on the `backend` global; the Triton branch asserts
that `qzeros` is an int32 tensor. -/
def matmul4bit_with_backend (st : BackendState) (x qweight scales qzeros : Tensor)
    (g_idx : Option Tensor) (bits maxq : Nat) (groupsize : Int) :
    Except PyErr Tensor :=
  if st.backend = some "cuda" then
    .ok (.mm4direct x qweight scales qzeros g_idx groupsize)
  else if st.backend = some "triton" then
    if qzeros.dtypeOf = some .int32 then
      .ok (.tritonMM x qweight scales qzeros g_idx bits maxq)
    else
      .error .assertionError
  else
    .error (.valueError "Backend not supported.")

/-- `OP.apply(x, qweight, scales, zeros, g_idx, bits, maxq)` for whichever
operator class `OP` a global binding currently refers to (the value returned
to the caller; the saved backward context is given by the corresponding
`*_forward` function). -/
def AutogradOp.applyFwd (op : AutogradOp) (x qweight scales zeros : Tensor)
    (g_idx : Option Tensor) (bits maxq : Nat) : Except PyErr Tensor :=
  match op with
  | .notImplemented => .error .notImplementedError
  | .cuda4bit => .ok (AutogradMatmul4bitCuda_forward x qweight scales zeros g_idx).1
  | .cuda2bit => .ok (AutogradMatmul2bitCuda_forward x qweight scales zeros g_idx).1
  | .triton4bit => .ok (AutogradMatmul4bitTriton_forward x qweight scales zeros g_idx bits maxq).1

/-! ## The quantized linear module (autograd_4bit.py lines 164-208)

`Autograd4bitQuantLinear.__init__` registers either the legacy v1 buffers
(`zeros`, `scales`, plain attribute `g_idx = None`) or the grouped v2 buffers
(`qzeros`, `scales`, `g_idx`); the layout is captured structurally by
`QLLayout`, so `is_v1_model` and attribute lookups are derived from it. -/

/-- Python floor division `//` on integers. -/
def pyFloorDiv (a b : Int) : Int := Int.fdiv a b

/-- `math.ceil(a / b)` on integers (`⌈a / b⌉ = -⌊-a / b⌋`). -/
def pyCeilDiv (a b : Int) : Int := -(Int.fdiv (-a) b)

/-- The layout-dependent buffers of `Autograd4bitQuantLinear`. -/
inductive QLLayout where
  | v1 (zeros scales : Buf)
  | v2 (qzeros scales g_idx : Buf)
deriving DecidableEq, Repr

/-- State of one `Autograd4bitQuantLinear` module. -/
structure QL where
  in_features : Nat
  out_features : Nat
  bits : Nat
  maxq : Nat
  groupsize : Int
  layout : QLLayout
  disable_bias : Bool
  bias : Buf
  qweight : Buf
deriving DecidableEq, Repr

/-- `Autograd4bitQuantLinear.__init__` (lines 166-189).  `groupsize = -1` is
replaced by `in_features`; `maxq = 2 ** bits - 1`; buffer shapes follow the
source formulas (`torch.empty` contents are represented canonically as
`BufData.uninit` of the requested shape). -/
def newQL (inF outF : Nat) (groupsize0 : Int) (is_v1_model : Bool) (bits : Nat) : QL :=
  let maxq : Nat := 2 ^ bits - 1
  let groupsize : Int := if groupsize0 ≠ -1 then groupsize0 else (inF : Int)
  { in_features := inF
    out_features := outF
    bits := bits
    maxq := maxq
    groupsize := groupsize
    layout :=
      if is_v1_model then
        .v1 ⟨.float32, .uninit [(outF : Int), 1]⟩ ⟨.float32, .uninit [(outF : Int), 1]⟩
      else
        .v2 ⟨.int32, .uninit [pyCeilDiv (inF : Int) groupsize, ((outF / 256 * (bits * 8) : Nat) : Int)]⟩
            ⟨.float32, .uninit [pyCeilDiv (inF : Int) groupsize, (outF : Int)]⟩
            ⟨.int32, .intVec ((List.range inF).map (fun i : Nat => pyFloorDiv (i : Int) groupsize))⟩
    disable_bias := false
    bias := ⟨.float32, .uninit [(outF : Int)]⟩
    qweight := ⟨.int32, .uninit [((inF / 256 * (bits * 8) : Nat) : Int), (outF : Int)]⟩ }

/-- `self.is_v1_model`, determined by which buffers the module carries. -/
def QL.is_v1_model (q : QL) : Bool :=
  match q.layout with
  | .v1 _ _ => true
  | .v2 _ _ _ => false

/-- `self.scales` (present in both layouts). -/
def QL.scalesBuf (q : QL) : Buf :=
  match q.layout with
  | .v1 _ s => s
  | .v2 _ s _ => s

/-- Attribute lookup `self.zeros` (only the v1 layout registers it). -/
def QL.zerosAttr (q : QL) : Except PyErr Buf :=
  match q.layout with
  | .v1 z _ => .ok z
  | .v2 _ _ _ => .error .attributeError

/-- Attribute lookup `self.qzeros` (only the v2 layout registers it). -/
def QL.qzerosAttr (q : QL) : Except PyErr Buf :=
  match q.layout with
  | .v1 _ _ => .error .attributeError
  | .v2 qz _ _ => .ok qz

/-- `self.g_idx`: `None` in the v1 layout, the group-index buffer in v2. -/
def QL.g_idxOpt (q : QL) : Option Buf :=
  match q.layout with
  | .v1 _ _ => none
  | .v2 _ _ g => some g

/-- The zero-point buffer the forward pass selects:
`self.qzeros if not self.is_v1_model else self.zeros`. -/
def QL.zeroPointBuf (q : QL) : Buf :=
  match q.layout with
  | .v1 z _ => z
  | .v2 qz _ _ => qz

/-- `Autograd4bitQuantLinear.forward` (lines 192-208).  `gradEnabled` is
`torch.is_grad_enabled()`; the autograd-operator and direct-kernel dispatch
consult the current `BackendState`. -/
def QL.forward (m : QL) (st : BackendState) (gradEnabled : Bool) (x : Tensor) :
    Except PyErr Tensor :=
  let core : Except PyErr Tensor :=
    if m.bits = 4 then
      match (if m.is_v1_model then m.zerosAttr else m.qzerosAttr) with
      | .error e => .error e
      | .ok zb =>
        if gradEnabled then
          st.autogradMatmul4bit.applyFwd x (.ofBuf m.qweight) (.ofBuf m.scalesBuf)
            (.ofBuf zb) (m.g_idxOpt.map .ofBuf) m.bits m.maxq
        else
          matmul4bit_with_backend st x (.ofBuf m.qweight) (.ofBuf m.scalesBuf)
            (.ofBuf zb) (m.g_idxOpt.map .ofBuf) m.bits m.maxq m.groupsize
    else if m.bits = 2 then
      match m.qzerosAttr with
      | .error e => .error e
      | .ok qz =>
        st.autogradMatmul2bit.applyFwd x (.ofBuf m.qweight) (.ofBuf m.scalesBuf)
          (.ofBuf qz) (m.g_idxOpt.map .ofBuf) m.bits m.maxq
    else
      .error (.valueError "Unsupported bitwidth.")
  match core with
  | .error e => .error e
  | .ok out => .ok (if m.disable_bias then out else .addBias out (.ofBuf m.bias))

/-! ## Host module trees (make_quant_for_4bit_autograd, model_to_half/float)

A host model is a tree of modules: ordinary linear layers (with their
`in_features` / `out_features` and float parameters), already-quantized
modules, and containers holding named child modules.  The attribute walk of
`make_quant_for_4bit_autograd` over `dir(module)` and its `named_children`
recursion both range over exactly the named child modules, which is how the
containers are modelled. -/

mutual
/-- A module in the host tree. -/
inductive MTree where
  | linear (in_features out_features : Nat) (weight bias : Buf)
  | quant (q : QL)
  | container (children : MChildren)
/-- The named children of a container, in attribute order. -/
inductive MChildren where
  | nil
  | cons (name : String) (child : MTree) (rest : MChildren)
end

mutual
/-- Termination measure for the substitution pass: every non-container module
weighs 1, so replacing a child by a freshly built quantized module never
increases the weight of a child list. -/
def MTree.weight : MTree → Nat
  | .linear _ _ _ _ => 1
  | .quant _ => 1
  | .container cs => cs.weightL + 1
/-- Weight of a child list (`≥ 1` by construction). -/
def MChildren.weightL : MChildren → Nat
  | .nil => 1
  | .cons _ m rest => m.weight + rest.weightL
end

theorem MTree.weight_pos (m : MTree) : 0 < m.weight := by
  cases m with
  | linear i o w b => simp only [MTree.weight]; omega
  | quant q => simp only [MTree.weight]; omega
  | container cs => simp only [MTree.weight]; omega

theorem MChildren.weightL_pos (cs : MChildren) : 0 < cs.weightL := by
  cases cs with
  | nil => simp only [MChildren.weightL]; omega
  | cons a m rest =>
    have := MTree.weight_pos m
    simp only [MChildren.weightL]; omega

/-- Qualified attribute name: `name + '.' + attr if name != '' else attr`. -/
def qualName (pre a : String) : String :=
  if pre ≠ "" then pre ++ "." ++ a else a

/-- Attribute lookups `tmp.in_features`, `tmp.out_features` on a module picked
out by the target-name set (a container module has no such attributes). -/
def featuresOf : MTree → Except PyErr (Nat × Nat)
  | .linear i o _ _ => .ok (i, o)
  | .quant q => .ok (q.in_features, q.out_features)
  | .container _ => .error .attributeError

/-- The attribute loop of `make_quant_for_4bit_autograd` (lines 214-220):
every direct child whose qualified name is in `names` is replaced by a freshly
constructed `Autograd4bitQuantLinear` of the same `in_features` /
`out_features`. -/
def replaceChildren (names : List String) (groupsize : Int) (is_v1_model : Bool)
    (bits : Nat) (pre : String) : MChildren → Except PyErr MChildren
  | .nil => .ok .nil
  | .cons a m rest =>
    let step : Except PyErr MTree :=
      if names.contains (qualName pre a) then
        match featuresOf m with
        | .error e => .error e
        | .ok (i, o) => .ok (.quant (newQL i o groupsize is_v1_model bits))
      else
        .ok m
    match step with
    | .error e => .error e
    | .ok m1 =>
      match replaceChildren names groupsize is_v1_model bits pre rest with
      | .error e => .error e
      | .ok rest1 => .ok (.cons a m1 rest1)

theorem replaceChildren_weightL_le (names : List String) (groupsize : Int)
    (is_v1_model : Bool) (bits : Nat) (pre : String) :
    ∀ (cs cs1 : MChildren),
      replaceChildren names groupsize is_v1_model bits pre cs = .ok cs1 →
      cs1.weightL ≤ cs.weightL
  | .nil, cs1, h => by
    simp only [replaceChildren, Except.ok.injEq] at h
    subst h; exact Nat.le_refl _
  | .cons a m rest, cs1, h => by
    simp only [replaceChildren] at h
    split at h
    · exact absurd h (by simp)
    next m1 hstep =>
      split at h
      · exact absurd h (by simp)
      next rest1 hrest =>
        simp only [Except.ok.injEq] at h
        subst h
        have hm1 : m1.weight ≤ m.weight := by
          split at hstep
          · split at hstep
            · exact absurd hstep (by simp)
            · simp only [Except.ok.injEq] at hstep
              subst hstep
              simpa [MTree.weight] using m.weight_pos
          · simp only [Except.ok.injEq] at hstep
            subst hstep
            exact Nat.le_refl _
        have hr := replaceChildren_weightL_le names groupsize is_v1_model bits pre rest rest1 hrest
        simp only [MChildren.weightL]
        omega

mutual
/-- `make_quant_for_4bit_autograd` (lines 211-222): stop on a module that is
already quantized; otherwise replace the targeted direct children, then recurse
into every (possibly replaced) child with the extended name prefix. -/
def make_quant_for_4bit_autograd (names : List String) (groupsize : Int)
    (is_v1_model : Bool) (bits : Nat) (pre : String) (m : MTree) :
    Except PyErr MTree :=
  match m with
  | .quant q => .ok (.quant q)
  | .linear i o w b => .ok (.linear i o w b)
  | .container cs =>
    match h1 : replaceChildren names groupsize is_v1_model bits pre cs with
    | .error e => .error e
    | .ok cs1 =>
      match recurseChildren names groupsize is_v1_model bits pre cs1 with
      | .error e => .error e
      | .ok cs2 => .ok (.container cs2)
termination_by m.weight
decreasing_by
  have := replaceChildren_weightL_le names groupsize is_v1_model bits pre cs cs1 h1
  simp only [MTree.weight]
  omega

/-- The `named_children` recursion of `make_quant_for_4bit_autograd`
(lines 221-222). -/
def recurseChildren (names : List String) (groupsize : Int) (is_v1_model : Bool)
    (bits : Nat) (pre : String) (cs : MChildren) : Except PyErr MChildren :=
  match cs with
  | .nil => .ok .nil
  | .cons a m rest =>
    match make_quant_for_4bit_autograd names groupsize is_v1_model bits (qualName pre a) m with
    | .error e => .error e
    | .ok m1 =>
      match recurseChildren names groupsize is_v1_model bits pre rest with
      | .error e => .error e
      | .ok rest1 => .ok (.cons a m1 rest1)
termination_by cs.weightL
decreasing_by
  · have := rest.weightL_pos
    simp only [MChildren.weightL]
    omega
  · have := m.weight_pos
    simp only [MChildren.weightL]
    omega
end

/-! ## Precision conversion (autograd_4bit.py lines 225-244)

`model.half()` / `model.float()` apply torch's module-level cast, which
converts a parameter/buffer only when `t.is_floating_point()`; the explicit
per-module reassignments `m.zeros = m.zeros.half()` etc. use the tensor-level
cast, which sets the dtype unconditionally.  Conversion is modelled as a dtype
change with the abstract contents kept. -/

/-- Module-level cast rule of `nn.Module.half()` / `.float()`:
convert only floating-point tensors. -/
def Buf.floatingGuardCast (target : DType) (b : Buf) : Buf :=
  if b.dtype.isFloatingPoint then { b with dtype := target } else b

/-- Tensor-level cast `t.half()` / `t.float()`: unconditional. -/
def Buf.castTo (target : DType) (b : Buf) : Buf :=
  { b with dtype := target }

/-- `nn.Module.half()/.float()` applied to the registered buffers of one
quantized module (`zeros`/`qzeros`, `scales`, `g_idx`, `bias`, `qweight`). -/
def QL.moduleCast (target : DType) (q : QL) : QL :=
  { q with
    layout :=
      match q.layout with
      | .v1 z s => .v1 (z.floatingGuardCast target) (s.floatingGuardCast target)
      | .v2 qz s g =>
        .v2 (qz.floatingGuardCast target) (s.floatingGuardCast target) (g.floatingGuardCast target)
    bias := q.bias.floatingGuardCast target
    qweight := q.qweight.floatingGuardCast target }

/-- The explicit per-module reassignments of `model_to_half` / `model_to_float`
(lines 229-232 / 240-243): `zeros` (v1 layout only), `scales` and `bias` get a
tensor-level cast; `qzeros`, `g_idx` and `qweight` are not touched. -/
def QL.explicitCast (target : DType) (q : QL) : QL :=
  { q with
    layout :=
      match q.layout with
      | .v1 z s => .v1 (z.castTo target) (s.castTo target)
      | .v2 qz s g => .v2 qz (s.castTo target) g
    bias := q.bias.castTo target }

mutual
/-- `model.half()` / `model.float()` over the whole tree. -/
def MTree.moduleCast (target : DType) : MTree → MTree
  | .linear i o w b => .linear i o (w.floatingGuardCast target) (b.floatingGuardCast target)
  | .quant q => .quant (q.moduleCast target)
  | .container cs => .container (cs.moduleCastL target)
def MChildren.moduleCastL (target : DType) : MChildren → MChildren
  | .nil => .nil
  | .cons a m rest => .cons a (m.moduleCast target) (rest.moduleCastL target)
end

mutual
/-- The `named_modules()` walk applying the explicit per-quantized-module
reassignments. -/
def MTree.explicitCastQuant (target : DType) : MTree → MTree
  | .linear i o w b => .linear i o w b
  | .quant q => .quant (q.explicitCast target)
  | .container cs => .container (cs.explicitCastQuantL target)
def MChildren.explicitCastQuantL (target : DType) : MChildren → MChildren
  | .nil => .nil
  | .cons a m rest => .cons a (m.explicitCastQuant target) (rest.explicitCastQuantL target)
end

/-- `model_to_half` (lines 225-233). -/
def model_to_half (m : MTree) : MTree :=
  (m.moduleCast .float16).explicitCastQuant .float16

/-- `model_to_float` (lines 236-244). -/
def model_to_float (m : MTree) : MTree :=
  (m.moduleCast .float32).explicitCastQuant .float32

/-- The packed integer buffers of one quantized module:
`qweight`, plus `qzeros` and `g_idx` in the v2 layout. -/
def QL.packedBufs (q : QL) : List Buf :=
  q.qweight ::
    (match q.layout with
     | .v1 _ _ => []
     | .v2 qz _ g => [qz, g])

mutual
/-- All packed integer buffers of the quantized modules in a tree. -/
def MTree.packedBufs : MTree → List Buf
  | .linear _ _ _ _ => []
  | .quant q => q.packedBufs
  | .container cs => cs.packedBufsL
def MChildren.packedBufsL : MChildren → List Buf
  | .nil => []
  | .cons _ m rest => m.packedBufs ++ rest.packedBufsL
end

/-- Every parameter/buffer of one quantized module. -/
def QL.allBufs (q : QL) : List Buf :=
  q.qweight :: q.bias ::
    (match q.layout with
     | .v1 z s => [z, s]
     | .v2 qz s g => [qz, s, g])

mutual
/-- Every parameter/buffer of the host tree. -/
def MTree.allBufs : MTree → List Buf
  | .linear _ _ w b => [w, b]
  | .quant q => q.allBufs
  | .container cs => cs.allBufsL
def MChildren.allBufsL : MChildren → List Buf
  | .nil => []
  | .cons _ m rest => m.allBufs ++ rest.allBufsL
end

/-- A buffer that was floating-point has been converted to `target`
(integer buffers report `true` vacuously). -/
def Buf.floatConvertedTo (target : DType) (b : Buf) : Bool :=
  !b.dtype.isFloatingPoint || b.dtype == target

/-! ## Finetune4bConfig (Finetune4bConfig.py lines 4-60)

Python floats (`lr`, `lora_dropout`, `val_set_size`) are modelled as
rationals; `int(val_set_size)` on a value `> 1.0` is truncation of a positive
number, i.e. the floor.  `gradient_accumulation_steps = batch_size //
mbatch_size` is Python floor division. -/

structure Finetune4bConfig where
  dataset : String
  ds_type : String
  lora_out_dir : String
  lora_apply_dir : String
  llama_q4_config_dir : String
  llama_q4_model : String
  mbatch_size : Int
  batch_size : Int
  gradient_accumulation_steps : Int
  epochs : Int
  lr : ℚ
  cutoff_len : Int
  lora_r : Int
  lora_alpha : Int
  lora_dropout : ℚ
  val_set_size : ℚ
  warmup_steps : Int
  save_steps : Int
  save_total_limit : Int
  logging_steps : Int
  checkpoint : Bool
  skip : Bool
deriving DecidableEq, Repr

/-- `Finetune4bConfig.__init__`: stores every argument; derives
`gradient_accumulation_steps = batch_size // mbatch_size` (no divisibility or
positivity check) and normalises `val_set_size`. -/
def mkFinetune4bConfig (dataset ds_type lora_out_dir lora_apply_dir
    llama_q4_config_dir llama_q4_model : String)
    (mbatch_size batch_size epochs : Int) (lr : ℚ) (cutoff_len lora_r lora_alpha : Int)
    (lora_dropout val_set_size : ℚ)
    (warmup_steps save_steps save_total_limit logging_steps : Int)
    (checkpoint skip : Bool) : Finetune4bConfig :=
  { dataset := dataset
    ds_type := ds_type
    lora_out_dir := lora_out_dir
    lora_apply_dir := lora_apply_dir
    llama_q4_config_dir := llama_q4_config_dir
    llama_q4_model := llama_q4_model
    mbatch_size := mbatch_size
    batch_size := batch_size
    gradient_accumulation_steps := Int.fdiv batch_size mbatch_size
    epochs := epochs
    lr := lr
    cutoff_len := cutoff_len
    lora_r := lora_r
    lora_alpha := lora_alpha
    lora_dropout := lora_dropout
    val_set_size := if 1 < val_set_size then (⌊val_set_size⌋ : ℚ) else val_set_size
    warmup_steps := warmup_steps
    save_steps := save_steps
    save_total_limit := save_total_limit
    logging_steps := logging_steps
    checkpoint := checkpoint
    skip := skip }

/-! ## Claim theorems -/

/-- Sample leaf tensor used by concrete witnesses. -/
def sbuf (k : Nat) : Tensor := .ofBuf ⟨.float16, .stored k⟩

/-- Claim C1: in every backward invocation of the 4-bit CUDA, 2-bit CUDA and
4-bit Triton autograd operators, any returned gradient tuple has `None` in all
six weight-side slots, and when the activation input requires a gradient the
activation slot is present and equals the kernel transpose-multiply of
`grad_output` with the tensors saved by `forward`. -/
theorem backward_gradient_isolation
    (x qweight scales zeros gradOutput : Tensor) (g_idx : Option Tensor)
    (bits maxq : Nat) :
    (AutogradMatmul4bitCuda_backward
        (AutogradMatmul4bitCuda_forward x qweight scales zeros g_idx).2 true gradOutput
      = .ok ⟨some (cudaMatmulTranspose4 gradOutput qweight scales zeros g_idx),
             none, none, none, none, none, none⟩)
    ∧ (AutogradMatmul2bitCuda_backward
        (AutogradMatmul2bitCuda_forward x qweight scales zeros g_idx).2 true gradOutput
      = .ok ⟨some (cudaMatmulTranspose2 gradOutput qweight scales zeros g_idx),
             none, none, none, none, none, none⟩)
    ∧ (AutogradMatmul4bitTriton_backward
        (AutogradMatmul4bitTriton_forward x qweight scales zeros g_idx bits maxq).2 true gradOutput
      = ⟨some (tritonMatmulTransposeKernel gradOutput qweight scales zeros g_idx bits maxq),
         none, none, none, none, none, none⟩)
    ∧ (∀ (ctx : SavedCuda) (n : Bool) (r : Grads),
         AutogradMatmul4bitCuda_backward ctx n gradOutput = .ok r → r.weightSideNone)
    ∧ (∀ (ctx : SavedCuda) (n : Bool) (r : Grads),
         AutogradMatmul2bitCuda_backward ctx n gradOutput = .ok r → r.weightSideNone)
    ∧ (∀ (ctx : SavedTriton) (n : Bool),
         (AutogradMatmul4bitTriton_backward ctx n gradOutput).weightSideNone) := by
  refine ⟨?_, ?_, ?_, ?_, ?_, ?_⟩
  · cases g_idx <;> rfl
  · rfl
  · rfl
  · intro ctx n r h
    cases n with
    | false => simp [AutogradMatmul4bitCuda_backward] at h
    | true =>
      simp only [AutogradMatmul4bitCuda_backward, if_true, Except.ok.injEq] at h
      subst h
      exact ⟨rfl, rfl, rfl, rfl, rfl, rfl⟩
  · intro ctx n r h
    cases n with
    | false => simp [AutogradMatmul2bitCuda_backward] at h
    | true =>
      simp only [AutogradMatmul2bitCuda_backward, if_true, Except.ok.injEq] at h
      subst h
      exact ⟨rfl, rfl, rfl, rfl, rfl, rfl⟩
  · intro ctx n
    cases n <;> exact ⟨rfl, rfl, rfl, rfl, rfl, rfl⟩

/-- Witness for C1 at a concrete invocation. -/
theorem backward_gradient_isolation_witness :
    Grads.weightSideNone
      ⟨some (Tensor.mm4v1 (sbuf 4) (sbuf 1) (sbuf 2) (sbuf 3) true),
       none, none, none, none, none, none⟩ :=
  (backward_gradient_isolation (sbuf 0) (sbuf 1) (sbuf 2) (sbuf 3) (sbuf 4) none 4 15).2.2.2.1
    ⟨sbuf 1, sbuf 2, sbuf 3, none⟩ true _ rfl

/-- Claim C2 (code bug): when the activation input does not require a gradient,
the CUDA backward implementations read the unassigned local `grad` and raise
`UnboundLocalError` instead of returning `(None, None x 6)`; only the Triton
variant (which initialises `grad_input = None`) completes normally. -/
theorem backward_no_grad_required_behavior :
    AutogradMatmul4bitCuda_backward ⟨sbuf 1, sbuf 2, sbuf 3, some (sbuf 4)⟩ false (sbuf 5)
      = .error .unboundLocalError
    ∧ AutogradMatmul2bitCuda_backward ⟨sbuf 1, sbuf 2, sbuf 3, some (sbuf 4)⟩ false (sbuf 5)
      = .error .unboundLocalError
    ∧ AutogradMatmul4bitTriton_backward ⟨sbuf 1, sbuf 2, sbuf 3, some (sbuf 4), 4, 15⟩ false (sbuf 5)
      = ⟨none, none, none, none, none, none, none⟩ :=
  ⟨rfl, rfl, rfl⟩

/-- Claim C4: a 4-bit module's forward dispatches through the currently bound
4-bit autograd operator when gradient tracking is enabled and through the
active backend's direct kernel otherwise, passing `zeros` as the zero-point
buffer in the v1 layout and `qzeros` otherwise (then adding the bias unless
disabled). -/
theorem forward_bits4_dispatch (q : QL) (hbits : q.bits = 4) (st : BackendState)
    (gradEnabled : Bool) (x : Tensor) :
    (q.forward st gradEnabled x =
      (if gradEnabled then
         st.autogradMatmul4bit.applyFwd x (.ofBuf q.qweight) (.ofBuf q.scalesBuf)
           (.ofBuf q.zeroPointBuf) (q.g_idxOpt.map .ofBuf) q.bits q.maxq
       else
         matmul4bit_with_backend st x (.ofBuf q.qweight) (.ofBuf q.scalesBuf)
           (.ofBuf q.zeroPointBuf) (q.g_idxOpt.map .ofBuf) q.bits q.maxq q.groupsize
      ).map (fun out => if q.disable_bias then out else .addBias out (.ofBuf q.bias)))
    ∧ (q.is_v1_model = true → q.zerosAttr = .ok q.zeroPointBuf)
    ∧ (q.is_v1_model = false → q.qzerosAttr = .ok q.zeroPointBuf) := by
  obtain ⟨i, o, b, mq, gs, lay, db, bias, qw⟩ := q
  subst hbits
  refine ⟨?_, ?_, ?_⟩
  · cases lay with
    | v1 z s =>
      cases gradEnabled with
      | true =>
        rcases hA : AutogradOp.applyFwd st.autogradMatmul4bit x (.ofBuf qw) (.ofBuf s)
            (.ofBuf z) none 4 mq with e | t <;>
          simp [QL.forward, QL.is_v1_model, QL.zerosAttr, QL.zeroPointBuf, QL.scalesBuf,
                QL.g_idxOpt, hA, Except.map]
      | false =>
        rcases hA : matmul4bit_with_backend st x (.ofBuf qw) (.ofBuf s)
            (.ofBuf z) none 4 mq gs with e | t <;>
          simp [QL.forward, QL.is_v1_model, QL.zerosAttr, QL.zeroPointBuf, QL.scalesBuf,
                QL.g_idxOpt, hA, Except.map]
    | v2 qz s g =>
      cases gradEnabled with
      | true =>
        rcases hA : AutogradOp.applyFwd st.autogradMatmul4bit x (.ofBuf qw) (.ofBuf s)
            (.ofBuf qz) (some (.ofBuf g)) 4 mq with e | t <;>
          simp [QL.forward, QL.is_v1_model, QL.qzerosAttr, QL.zeroPointBuf, QL.scalesBuf,
                QL.g_idxOpt, hA, Except.map]
      | false =>
        rcases hA : matmul4bit_with_backend st x (.ofBuf qw) (.ofBuf s)
            (.ofBuf qz) (some (.ofBuf g)) 4 mq gs with e | t <;>
          simp [QL.forward, QL.is_v1_model, QL.qzerosAttr, QL.zeroPointBuf, QL.scalesBuf,
                QL.g_idxOpt, hA, Except.map]
  · cases lay with
    | v1 z s => intro _; rfl
    | v2 qz s g => intro h; simp [QL.is_v1_model] at h
  · cases lay with
    | v1 z s => intro h; simp [QL.is_v1_model] at h
    | v2 qz s g => intro _; rfl

/-- Witness for C4 on a freshly constructed v2 module. -/
theorem forward_bits4_dispatch_witness :
    (newQL 256 128 (-1) false 4).qzerosAttr = .ok (newQL 256 128 (-1) false 4).zeroPointBuf :=
  (forward_bits4_dispatch (newQL 256 128 (-1) false 4) rfl
    (initBackendState true false) true (sbuf 0)).2.2 rfl

/-- Claim C5: `switch_backend_to` raises `ValueError` for an unknown name and
for a requested backend whose import failed at load time; for an available
backend it immediately updates the process-wide state (operator binding and
backend name), after which the inference-path kernel dispatch routes through
the selected backend. -/
theorem switch_backend_contract :
    (∀ (st : BackendState) (name : String), name ≠ "cuda" → name ≠ "triton" →
       switch_backend_to st name = .error (.valueError "Backend not supported."))
    ∧ (∀ st : BackendState, st.gptq_backend_loaded = false →
       switch_backend_to st "cuda"
         = .error (.valueError "quant_cuda not found. Please reinstall with pip install ."))
    ∧ (∀ st : BackendState, st.triton_backend_loaded = false →
       switch_backend_to st "triton"
         = .error (.valueError "Triton not found. Please install triton"))
    ∧ (∀ st : BackendState, st.gptq_backend_loaded = true →
       switch_backend_to st "cuda"
         = .ok { st with autogradMatmul4bit := .cuda4bit, backend := some "cuda" }
       ∧ ∀ st' : BackendState, switch_backend_to st "cuda" = .ok st' →
           st'.backend = some "cuda"
           ∧ ∀ (x qw sc qz : Tensor) (g : Option Tensor) (bits maxq : Nat) (gsz : Int),
               matmul4bit_with_backend st' x qw sc qz g bits maxq gsz
                 = .ok (.mm4direct x qw sc qz g gsz))
    ∧ (∀ st : BackendState, st.triton_backend_loaded = true →
       switch_backend_to st "triton"
         = .ok { st with autogradMatmul4bit := .triton4bit, backend := some "triton" }
       ∧ ∀ st' : BackendState, switch_backend_to st "triton" = .ok st' →
           st'.backend = some "triton"
           ∧ ∀ (x qw sc : Tensor) (qzb : Buf) (g : Option Tensor) (bits maxq : Nat) (gsz : Int),
               qzb.dtype = .int32 →
               matmul4bit_with_backend st' x qw sc (.ofBuf qzb) g bits maxq gsz
                 = .ok (.tritonMM x qw sc (.ofBuf qzb) g bits maxq)) := by
  refine ⟨?_, ?_, ?_, ?_, ?_⟩
  · intro st name hc ht
    simp [switch_backend_to, hc, ht]
  · intro st h
    simp [switch_backend_to, is_gptq_backend_available, h]
  · intro st h
    simp [switch_backend_to, is_triton_backend_available, h]
  · intro st h
    have hok : switch_backend_to st "cuda"
        = .ok { st with autogradMatmul4bit := .cuda4bit, backend := some "cuda" } := by
      simp [switch_backend_to, is_gptq_backend_available, h]
    refine ⟨hok, ?_⟩
    intro st' hst'
    rw [hok] at hst'
    simp only [Except.ok.injEq] at hst'
    subst hst'
    refine ⟨rfl, ?_⟩
    intro x qw sc qz g bits maxq gsz
    simp [matmul4bit_with_backend]
  · intro st h
    have hok : switch_backend_to st "triton"
        = .ok { st with autogradMatmul4bit := .triton4bit, backend := some "triton" } := by
      simp [switch_backend_to, is_triton_backend_available, h]
    refine ⟨hok, ?_⟩
    intro st' hst'
    rw [hok] at hst'
    simp only [Except.ok.injEq] at hst'
    subst hst'
    refine ⟨rfl, ?_⟩
    intro x qw sc qzb g bits maxq gsz hdt
    simp [matmul4bit_with_backend, Tensor.dtypeOf, hdt]

/-- Witness for C5: switching an available cuda backend on a state where it
loaded. -/
theorem switch_backend_contract_witness :
    switch_backend_to (initBackendState true false) "cuda"
      = .ok { initBackendState true false with
              autogradMatmul4bit := .cuda4bit, backend := some "cuda" } :=
  (switch_backend_contract.2.2.2.1 (initBackendState true false) rfl).1

/-- Claim C6: construction of a quantized module never validates the
bit-width (it records `bits` and `maxq` and allocates buffers), and every
forward call on a module whose bit-width is outside {2, 4} raises
`ValueError('Unsupported bitwidth.')`. -/
theorem unsupported_bitwidth (inF outF : Nat) (gs : Int) (is_v1_model : Bool)
    (bits : Nat) (h2 : bits ≠ 2) (h4 : bits ≠ 4) :
    (newQL inF outF gs is_v1_model bits).bits = bits
    ∧ (newQL inF outF gs is_v1_model bits).maxq = 2 ^ bits - 1
    ∧ ∀ (st : BackendState) (gradEnabled : Bool) (x : Tensor),
        (newQL inF outF gs is_v1_model bits).forward st gradEnabled x
          = .error (.valueError "Unsupported bitwidth.") := by
  refine ⟨rfl, rfl, ?_⟩
  intro st gradEnabled x
  simp [QL.forward, newQL, h2, h4]

/-- Witness for C6 at bit-width 3. -/
theorem unsupported_bitwidth_witness :
    (newQL 256 256 (-1) false 3).forward (initBackendState true false) true (sbuf 0)
      = .error (.valueError "Unsupported bitwidth.") :=
  (unsupported_bitwidth 256 256 (-1) false 3 (by decide) (by decide)).2.2
    (initBackendState true false) true (sbuf 0)

/-- Claim C9: a successful backend switch never changes the 2-bit operator
binding, which keeps its import-time value: the 2-bit CUDA operator when the
compiled-kernel backend loaded, the NotImplemented placeholder otherwise. -/
theorem switch_preserves_2bit_binding :
    (∀ (st st' : BackendState) (name : String),
       switch_backend_to st name = .ok st' →
       st'.autogradMatmul2bit = st.autogradMatmul2bit)
    ∧ (∀ gptqLoaded tritonLoaded : Bool,
       (initBackendState gptqLoaded tritonLoaded).autogradMatmul2bit
         = if gptqLoaded then .cuda2bit else .notImplemented) := by
  constructor
  · intro st st' name h
    simp only [switch_backend_to] at h
    split at h
    · split at h
      · exact absurd h (by simp)
      · simp only [Except.ok.injEq] at h
        subst h; rfl
    · split at h
      · split at h
        · exact absurd h (by simp)
        · simp only [Except.ok.injEq] at h
          subst h; rfl
      · exact absurd h (by simp)
  · intro gptqLoaded tritonLoaded
    cases gptqLoaded <;> cases tritonLoaded <;> rfl

/-- Witness for C9: switching from cuda to triton leaves the 2-bit binding. -/
theorem switch_preserves_2bit_binding_witness :
    ({ initBackendState true true with
       autogradMatmul4bit := .triton4bit, backend := some "triton" } : BackendState).autogradMatmul2bit
      = (initBackendState true true).autogradMatmul2bit :=
  switch_preserves_2bit_binding.1 (initBackendState true true) _ "triton" rfl

/-- Floor division is invariant under negating both operands. -/
theorem int_fdiv_neg_neg (a b : Int) : Int.fdiv a b = Int.fdiv (-a) (-b) := by
  rcases a with m | m <;> rcases b with n | n
  · cases m with
    | zero => simp [Int.fdiv]
    | succ m' =>
      cases n with
      | zero =>
        have h1 : Int.fdiv (Int.ofNat (Nat.succ m')) (Int.ofNat 0)
            = Int.ofNat (Nat.succ m' / 0) := rfl
        have h2 : Int.fdiv (-(Int.ofNat (Nat.succ m')) : Int) (-(Int.ofNat 0) : Int) = 0 := rfl
        rw [h1, h2, Nat.div_zero]
        rfl
      | succ n' => rfl
  · cases m with
    | zero => simp [Int.fdiv]
    | succ m' => rfl
  · cases n with
    | zero =>
      have h2 : Int.fdiv (-(Int.negSucc m) : Int) (-(Int.ofNat 0) : Int)
          = Int.ofNat (Nat.succ m / 0) := rfl
      rw [h2, Nat.div_zero]
      rfl
    | succ n' => rfl
  · rfl

/-- `Int.fdiv` is the floor of the rational quotient (Python `//`). -/
theorem int_fdiv_eq_rat_floor (a b : Int) (hb : b ≠ 0) :
    Int.fdiv a b = ⌊(a : ℚ) / (b : ℚ)⌋ := by
  rcases lt_trichotomy b 0 with hneg | hz | hpos
  · rw [int_fdiv_neg_neg]
    have hpos' : (0 : Int) < -b := by omega
    rw [Int.fdiv_eq_ediv _ (le_of_lt hpos')]
    have h1 : ((-b).toNat : Int) = -b := Int.toNat_of_nonneg (le_of_lt hpos')
    have key := Rat.floor_intCast_div_natCast (-a) (-b).toNat
    rw [show (((-b).toNat : ℕ) : ℚ) = ((-b : Int) : ℚ) from by exact_mod_cast congrArg (Int.cast : ℤ → ℚ) h1] at key
    rw [h1] at key
    rw [← key]
    congr 1
    push_cast
    rw [neg_div_neg_eq]
  · exact absurd hz hb
  · rw [Int.fdiv_eq_ediv _ (le_of_lt hpos)]
    have h1 : (b.toNat : Int) = b := Int.toNat_of_nonneg (le_of_lt hpos)
    have key := Rat.floor_intCast_div_natCast a b.toNat
    rw [show ((b.toNat : ℕ) : ℚ) = (b : ℚ) from by exact_mod_cast congrArg (Int.cast : ℤ → ℚ) h1] at key
    rw [h1] at key
    rw [key]

/-- Claim C10: for a config with `mbatch_size ≠ 0`, the stored
`gradient_accumulation_steps` is the Python floor division
`batch_size // mbatch_size`, i.e. the floor of the exact quotient; no
divisibility or positivity check restricts the two sizes. -/
theorem gradient_accumulation_floor (dataset ds_type lora_out_dir lora_apply_dir
    llama_q4_config_dir llama_q4_model : String)
    (mbatch_size batch_size epochs : Int) (lr : ℚ) (cutoff_len lora_r lora_alpha : Int)
    (lora_dropout val_set_size : ℚ)
    (warmup_steps save_steps save_total_limit logging_steps : Int)
    (checkpoint skip : Bool) (hm : mbatch_size ≠ 0) :
    (mkFinetune4bConfig dataset ds_type lora_out_dir lora_apply_dir
        llama_q4_config_dir llama_q4_model mbatch_size batch_size epochs lr
        cutoff_len lora_r lora_alpha lora_dropout val_set_size warmup_steps
        save_steps save_total_limit logging_steps checkpoint skip).gradient_accumulation_steps
      = Int.fdiv batch_size mbatch_size
    ∧ (mkFinetune4bConfig dataset ds_type lora_out_dir lora_apply_dir
        llama_q4_config_dir llama_q4_model mbatch_size batch_size epochs lr
        cutoff_len lora_r lora_alpha lora_dropout val_set_size warmup_steps
        save_steps save_total_limit logging_steps checkpoint skip).gradient_accumulation_steps
      = ⌊(batch_size : ℚ) / (mbatch_size : ℚ)⌋ := by
  refine ⟨rfl, ?_⟩
  show Int.fdiv batch_size mbatch_size = _
  exact int_fdiv_eq_rat_floor batch_size mbatch_size hm

/-- Witness for C10: batch 7, micro-batch 2 gives 3 accumulation steps. -/
theorem gradient_accumulation_floor_witness :
    (mkFinetune4bConfig "d" "t" "o" "a" "c" "m" 2 7 1 (3 / 10000) 256 8 16 0
        (1 / 10) 50 50 3 10 false false).gradient_accumulation_steps = Int.fdiv 7 2
    ∧ (mkFinetune4bConfig "d" "t" "o" "a" "c" "m" 2 7 1 (3 / 10000) 256 8 16 0
        (1 / 10) 50 50 3 10 false false).gradient_accumulation_steps = ⌊(7 : ℚ) / (2 : ℚ)⌋ :=
  gradient_accumulation_floor "d" "t" "o" "a" "c" "m" 2 7 1 (3 / 10000) 256 8 16 0
    (1 / 10) 50 50 3 10 false false (by decide)

/-- On natural operands, floor division agrees with `Nat` division. -/
theorem int_fdiv_ofNat (i g : Nat) :
    Int.fdiv (i : Int) (g : Int) = ((i / g : Nat) : Int) := by
  cases i with
  | zero => simp [Int.fdiv, Nat.zero_div]
  | succ i' => rfl

/-- Ceiling division on naturals (`⌈a / b⌉` for `b > 0`). -/
def ceilDivNat (a b : Nat) : Nat := (a + b - 1) / b

/-- Claim C8: a module constructed with `is_v1_model = false` carries a group
index of length `in_features` whose `i`-th entry is `i // group_size` (with
`group_size = -1` replaced by `in_features`), so all entries lie in
`0 .. ceil(in_features / group_size) - 1`. -/
theorem g_idx_construction (inF outF : Nat) (gs : Int) (bits : Nat)
    (hgs : gs = -1 ∨ 0 < gs) :
    ∃ vals : List Int,
      (newQL inF outF gs false bits).g_idxOpt = some ⟨.int32, .intVec vals⟩
      ∧ vals.length = inF
      ∧ (∀ i : Nat, i < inF →
          vals.getD i 0 = Int.fdiv (i : Int) (if gs = -1 then (inF : Int) else gs))
      ∧ ∀ v ∈ vals, 0 ≤ v ∧ v < (ceilDivNat inF (if gs = -1 then inF else gs.toNat) : Int) := by
  refine ⟨(List.range inF).map
      (fun i : Nat => pyFloorDiv (i : Int) (if gs ≠ -1 then gs else (inF : Int))), ?_, ?_, ?_, ?_⟩
  · simp [newQL, QL.g_idxOpt]
  · simp
  · intro i hi
    have hget : ((List.range inF).map
        (fun i : Nat => pyFloorDiv (i : Int) (if gs ≠ -1 then gs else (inF : Int)))).getD i 0
        = pyFloorDiv (i : Int) (if gs ≠ -1 then gs else (inF : Int)) := by
      rw [List.getD_eq_getElem?_getD, List.getElem?_map, List.getElem?_range hi]
      rfl
    rw [hget]
    by_cases h : gs = -1 <;> simp [h, pyFloorDiv]
  · intro v hv
    simp only [List.mem_map, List.mem_range] at hv
    obtain ⟨i, hi, rfl⟩ := hv
    have hgN : (if gs ≠ -1 then gs else (inF : Int))
        = ((if gs = -1 then inF else gs.toNat : Nat) : Int) := by
      rcases hgs with h | h
      · simp [h]
      · have hne : gs ≠ -1 := by omega
        simp [hne, Int.toNat_of_nonneg (le_of_lt h)]
    have hgNpos : 0 < (if gs = -1 then inF else gs.toNat) := by
      rcases hgs with h | h
      · simp only [h, if_true]
        omega
      · have hne : gs ≠ -1 := by omega
        simp only [hne, if_false]
        omega
    rw [pyFloorDiv, hgN, int_fdiv_ofNat]
    constructor
    · exact Int.ofNat_nonneg _
    · have hin : 1 ≤ inF := by omega
      have h1 : i / (if gs = -1 then inF else gs.toNat)
          ≤ (inF - 1) / (if gs = -1 then inF else gs.toNat) :=
        Nat.div_le_div_right (by omega)
      have h3 : ceilDivNat inF (if gs = -1 then inF else gs.toNat)
          = (inF - 1) / (if gs = -1 then inF else gs.toNat) + 1 := by
        unfold ceilDivNat
        rw [show inF + (if gs = -1 then inF else gs.toNat) - 1
              = (inF - 1) + (if gs = -1 then inF else gs.toNat) by omega,
            Nat.add_div_right _ hgNpos]
      have hlt : i / (if gs = -1 then inF else gs.toNat)
          < ceilDivNat inF (if gs = -1 then inF else gs.toNat) := by omega
      exact_mod_cast hlt

/-- Witness for C8 at `in_features = 8`, `group_size = 3`. -/
theorem g_idx_construction_witness :
    ∃ vals : List Int,
      (newQL 8 4 3 false 4).g_idxOpt = some ⟨.int32, .intVec vals⟩
      ∧ vals.length = 8
      ∧ (∀ i : Nat, i < 8 →
          vals.getD i 0 = Int.fdiv (i : Int) (if (3 : Int) = -1 then ((8 : Nat) : Int) else 3))
      ∧ ∀ v ∈ vals, 0 ≤ v ∧ v < (ceilDivNat 8 (if (3 : Int) = -1 then 8 else (3 : Int).toNat) : Int) :=
  g_idx_construction 8 4 3 4 (Or.inr (by decide))

/-- The explicitly re-converted float-side buffers of one quantized module:
`bias`, `scales`, and `zeros` in the v1 layout. -/
def QL.floatSideBufs (q : QL) : List Buf :=
  q.bias ::
    (match q.layout with
     | .v1 z s => [z, s]
     | .v2 _ s _ => [s])

mutual
/-- The explicitly re-converted float-side buffers of all quantized modules. -/
def MTree.floatSideBufs : MTree → List Buf
  | .linear _ _ _ _ => []
  | .quant q => q.floatSideBufs
  | .container cs => cs.floatSideBufsL
def MChildren.floatSideBufsL : MChildren → List Buf
  | .nil => []
  | .cons _ m rest => m.floatSideBufs ++ rest.floatSideBufsL
end

theorem floatingGuardCast_converted (target : DType) (b : Buf) :
    (b.floatingGuardCast target).floatConvertedTo target = true := by
  unfold Buf.floatingGuardCast Buf.floatConvertedTo
  cases hb : b.dtype.isFloatingPoint <;> simp [hb]

theorem castTo_converted (target : DType) (b : Buf) :
    (b.castTo target).floatConvertedTo target = true := by
  simp [Buf.castTo, Buf.floatConvertedTo]

theorem floatingGuardCast_of_nonfloat (target : DType) (b : Buf)
    (h : b.dtype.isFloatingPoint = false) : b.floatingGuardCast target = b := by
  simp [Buf.floatingGuardCast, h]

mutual
/-- After a module-level cast followed by the explicit per-quantized-module
pass, every buffer that was floating-point carries the target dtype. -/
theorem cast_allOk_tree (target : DType) :
    ∀ m : MTree,
      (((m.moduleCast target).explicitCastQuant target).allBufs).all
        (Buf.floatConvertedTo target) = true
  | .linear i o w b => by
    simp [MTree.moduleCast, MTree.explicitCastQuant, MTree.allBufs,
          floatingGuardCast_converted]
  | .quant q => by
    obtain ⟨i, o, bts, mq, gs, lay, db, bias, qw⟩ := q
    cases lay <;>
      simp [MTree.moduleCast, MTree.explicitCastQuant, MTree.allBufs,
            QL.moduleCast, QL.explicitCast, QL.allBufs,
            floatingGuardCast_converted, castTo_converted]
  | .container cs => by
    simp only [MTree.moduleCast, MTree.explicitCastQuant, MTree.allBufs]
    exact cast_allOk_children target cs
theorem cast_allOk_children (target : DType) :
    ∀ cs : MChildren,
      (((cs.moduleCastL target).explicitCastQuantL target).allBufsL).all
        (Buf.floatConvertedTo target) = true
  | .nil => by simp [MChildren.moduleCastL, MChildren.explicitCastQuantL, MChildren.allBufsL]
  | .cons a m rest => by
    simp only [MChildren.moduleCastL, MChildren.explicitCastQuantL, MChildren.allBufsL,
               List.all_append, Bool.and_eq_true]
    exact ⟨cast_allOk_tree target m, cast_allOk_children target rest⟩
end

mutual
/-- After the two conversion passes, every explicitly re-converted float-side
buffer (`zeros` in v1, `scales`, `bias`) carries exactly the target dtype. -/
theorem cast_floatSide_tree (target : DType) :
    ∀ m : MTree,
      (((m.moduleCast target).explicitCastQuant target).floatSideBufs).all
        (fun b => b.dtype == target) = true
  | .linear i o w b => by
    simp [MTree.moduleCast, MTree.explicitCastQuant, MTree.floatSideBufs]
  | .quant q => by
    obtain ⟨i, o, bts, mq, gs, lay, db, bias, qw⟩ := q
    cases lay <;>
      simp [MTree.moduleCast, MTree.explicitCastQuant, MTree.floatSideBufs,
            QL.moduleCast, QL.explicitCast, QL.floatSideBufs, Buf.castTo]
  | .container cs => by
    simp only [MTree.moduleCast, MTree.explicitCastQuant, MTree.floatSideBufs]
    exact cast_floatSide_children target cs
theorem cast_floatSide_children (target : DType) :
    ∀ cs : MChildren,
      (((cs.moduleCastL target).explicitCastQuantL target).floatSideBufsL).all
        (fun b => b.dtype == target) = true
  | .nil => by simp [MChildren.moduleCastL, MChildren.explicitCastQuantL, MChildren.floatSideBufsL]
  | .cons a m rest => by
    simp only [MChildren.moduleCastL, MChildren.explicitCastQuantL, MChildren.floatSideBufsL,
               List.all_append, Bool.and_eq_true]
    exact ⟨cast_floatSide_tree target m, cast_floatSide_children target rest⟩
end

mutual
/-- When the packed buffers are integer-typed (as constructed and loaded), the
two conversion passes leave all of them unchanged. -/
theorem cast_packed_tree (target : DType) :
    ∀ m : MTree,
      m.packedBufs.all (fun b => !b.dtype.isFloatingPoint) = true →
      ((m.moduleCast target).explicitCastQuant target).packedBufs = m.packedBufs
  | .linear i o w b, _ => by
    simp [MTree.moduleCast, MTree.explicitCastQuant, MTree.packedBufs]
  | .quant q, h => by
    obtain ⟨i, o, bts, mq, gs, lay, db, bias, qw⟩ := q
    cases lay with
    | v1 z s =>
      simp only [MTree.packedBufs, QL.packedBufs, List.all_cons, List.all_nil,
                 Bool.and_eq_true, Bool.not_eq_true'] at h
      simp [MTree.moduleCast, MTree.explicitCastQuant, QL.moduleCast, QL.explicitCast,
            MTree.packedBufs, QL.packedBufs, floatingGuardCast_of_nonfloat _ _ h.1]
    | v2 qz s g =>
      simp only [MTree.packedBufs, QL.packedBufs, List.all_cons, List.all_nil,
                 Bool.and_eq_true, Bool.not_eq_true'] at h
      simp [MTree.moduleCast, MTree.explicitCastQuant, QL.moduleCast, QL.explicitCast,
            MTree.packedBufs, QL.packedBufs, floatingGuardCast_of_nonfloat _ _ h.1,
            floatingGuardCast_of_nonfloat _ _ h.2.1, floatingGuardCast_of_nonfloat _ _ h.2.2.1]
  | .container cs, h => by
    simp only [MTree.moduleCast, MTree.explicitCastQuant, MTree.packedBufs] at h ⊢
    exact cast_packed_children target cs h
theorem cast_packed_children (target : DType) :
    ∀ cs : MChildren,
      cs.packedBufsL.all (fun b => !b.dtype.isFloatingPoint) = true →
      ((cs.moduleCastL target).explicitCastQuantL target).packedBufsL = cs.packedBufsL
  | .nil, _ => by simp [MChildren.moduleCastL, MChildren.explicitCastQuantL, MChildren.packedBufsL]
  | .cons a m rest, h => by
    simp only [MChildren.packedBufsL, List.all_append, Bool.and_eq_true] at h
    simp only [MChildren.moduleCastL, MChildren.explicitCastQuantL, MChildren.packedBufsL]
    rw [cast_packed_tree target m h.1, cast_packed_children target rest h.2]
end

/-- Claim C7: `model_to_half` / `model_to_float` convert every floating-point
parameter/buffer of the host model to the target precision, explicitly set the
quantized modules' `scales`, `zeros` (v1 layout only) and `bias` to the target
precision, and leave the packed integer buffers `qweight`, `qzeros`, `g_idx`
bit-identical. -/
theorem precision_conversion_frame (m : MTree)
    (h : m.packedBufs.all (fun b => !b.dtype.isFloatingPoint) = true) :
    (model_to_half m).packedBufs = m.packedBufs
    ∧ (model_to_half m).allBufs.all (Buf.floatConvertedTo .float16) = true
    ∧ (model_to_half m).floatSideBufs.all (fun b => b.dtype == DType.float16) = true
    ∧ (model_to_float m).packedBufs = m.packedBufs
    ∧ (model_to_float m).allBufs.all (Buf.floatConvertedTo .float32) = true
    ∧ (model_to_float m).floatSideBufs.all (fun b => b.dtype == DType.float32) = true :=
  ⟨cast_packed_tree .float16 m h, cast_allOk_tree .float16 m, cast_floatSide_tree .float16 m,
   cast_packed_tree .float32 m h, cast_allOk_tree .float32 m, cast_floatSide_tree .float32 m⟩

/-- Witness for C7 on a small concrete model: one container holding a linear
layer and a freshly constructed v1 quantized module. -/
theorem precision_conversion_frame_witness :
    (model_to_half (.container (.cons "fc" (.linear 4 4 ⟨.float32, .stored 0⟩ ⟨.float32, .stored 1⟩)
        (.cons "q" (.quant (newQL 256 256 (-1) true 4)) .nil)))).packedBufs
      = (MTree.container (.cons "fc" (.linear 4 4 ⟨.float32, .stored 0⟩ ⟨.float32, .stored 1⟩)
        (.cons "q" (.quant (newQL 256 256 (-1) true 4)) .nil))).packedBufs :=
  (precision_conversion_frame
    (.container (.cons "fc" (.linear 4 4 ⟨.float32, .stored 0⟩ ⟨.float32, .stored 1⟩)
      (.cons "q" (.quant (newQL 256 256 (-1) true 4)) .nil))) (by decide)).1

/-- Unfolding equation: a quantized module stops the substitution. -/
theorem make_quant_quant_eq (names : List String) (gs : Int) (v1 : Bool)
    (bits : Nat) (pre : String) (q : QL) :
    make_quant_for_4bit_autograd names gs v1 bits pre (.quant q) = .ok (.quant q) := by
  simp [make_quant_for_4bit_autograd]

/-- Unfolding equation: a linear leaf with no children is left unchanged. -/
theorem make_quant_linear_eq (names : List String) (gs : Int) (v1 : Bool)
    (bits : Nat) (pre : String) (i o : Nat) (w b : Buf) :
    make_quant_for_4bit_autograd names gs v1 bits pre (.linear i o w b)
      = .ok (.linear i o w b) := by
  simp [make_quant_for_4bit_autograd]

/-- Unfolding equation for a container: replacement pass, then recursion. -/
theorem make_quant_container_eq (names : List String) (gs : Int) (v1 : Bool)
    (bits : Nat) (pre : String) (cs : MChildren) :
    make_quant_for_4bit_autograd names gs v1 bits pre (.container cs)
      = match replaceChildren names gs v1 bits pre cs with
        | .error e => .error e
        | .ok cs1 =>
          match recurseChildren names gs v1 bits pre cs1 with
          | .error e => .error e
          | .ok cs2 => .ok (.container cs2) := by
  simp only [make_quant_for_4bit_autograd]
  split
  next e heq => simp [heq]
  next cs1 heq => simp [heq]

/-- A freshly constructed quantized module reports the features it was built
from. -/
theorem featuresOf_newQL (i o : Nat) (gs : Int) (v1 : Bool) (bits : Nat) :
    featuresOf (.quant (newQL i o gs v1 bits)) = .ok (i, o) := rfl

/-- After one replacement-plus-recursion pass over a child list, a second pass
changes nothing (given the induction hypothesis for strictly lighter
modules). -/
theorem children_fix (names : List String) (gs : Int) (v1 : Bool) (bits : Nat) (W : Nat)
    (IH : ∀ (pre : String) (m0 m' : MTree), m0.weight < W →
        make_quant_for_4bit_autograd names gs v1 bits pre m0 = .ok m' →
        make_quant_for_4bit_autograd names gs v1 bits pre m' = .ok m') :
    ∀ (pre : String) (cs cs1 cs2 : MChildren), cs.weightL < W →
      replaceChildren names gs v1 bits pre cs = .ok cs1 →
      recurseChildren names gs v1 bits pre cs1 = .ok cs2 →
      replaceChildren names gs v1 bits pre cs2 = .ok cs2
      ∧ recurseChildren names gs v1 bits pre cs2 = .ok cs2
  | pre, .nil, cs1, cs2, _, hrep, hrec => by
    simp only [replaceChildren, Except.ok.injEq] at hrep
    subst hrep
    simp only [recurseChildren, Except.ok.injEq] at hrec
    subst hrec
    refine ⟨rfl, ?_⟩
    simp [recurseChildren]
  | pre, .cons a m rest, cs1, cs2, hW, hrep, hrec => by
    have hWm : m.weight < W := by
      have := rest.weightL_pos
      simp only [MChildren.weightL] at hW
      omega
    have hWrest : rest.weightL < W := by
      have := m.weight_pos
      simp only [MChildren.weightL] at hW
      omega
    cases hc : names.contains (qualName pre a) with
    | true =>
      simp only [replaceChildren, hc, if_true] at hrep
      cases hf : featuresOf m with
      | error e => simp [hf] at hrep
      | ok io =>
        obtain ⟨i, o⟩ := io
        simp only [hf] at hrep
        cases hr : replaceChildren names gs v1 bits pre rest with
        | error e => simp [hr] at hrep
        | ok rest1 =>
          simp only [hr, Except.ok.injEq] at hrep
          subst hrep
          have hq := make_quant_quant_eq names gs v1 bits (qualName pre a) (newQL i o gs v1 bits)
          simp only [recurseChildren, hq] at hrec
          cases hr2 : recurseChildren names gs v1 bits pre rest1 with
          | error e => simp [hr2] at hrec
          | ok rest2 =>
            simp only [hr2, Except.ok.injEq] at hrec
            subst hrec
            obtain ⟨hrepFix, hrecFix⟩ :=
              children_fix names gs v1 bits W IH pre rest rest1 rest2 hWrest hr hr2
            constructor
            · simp only [replaceChildren, hc, if_true, featuresOf_newQL, hrepFix]
            · simp only [recurseChildren, hq, hrecFix]
    | false =>
      simp only [replaceChildren, hc, Bool.false_eq_true, if_false] at hrep
      cases hr : replaceChildren names gs v1 bits pre rest with
      | error e => simp [hr] at hrep
      | ok rest1 =>
        simp only [hr, Except.ok.injEq] at hrep
        subst hrep
        simp only [recurseChildren] at hrec
        cases hm : make_quant_for_4bit_autograd names gs v1 bits (qualName pre a) m with
        | error e => simp [hm] at hrec
        | ok m2 =>
          simp only [hm] at hrec
          cases hr2 : recurseChildren names gs v1 bits pre rest1 with
          | error e => simp [hr2] at hrec
          | ok rest2 =>
            simp only [hr2, Except.ok.injEq] at hrec
            subst hrec
            obtain ⟨hrepFix, hrecFix⟩ :=
              children_fix names gs v1 bits W IH pre rest rest1 rest2 hWrest hr hr2
            have hm2 := IH (qualName pre a) m m2 hWm hm
            constructor
            · simp only [replaceChildren, hc, Bool.false_eq_true, if_false, hrepFix]
            · simp only [recurseChildren, hm2, hrecFix]

/-- Idempotence of the substitution pass at any name prefix. -/
theorem make_quant_idem_general (names : List String) (gs : Int) (v1 : Bool) (bits : Nat) :
    ∀ (pre : String) (m m' : MTree),
      make_quant_for_4bit_autograd names gs v1 bits pre m = .ok m' →
      make_quant_for_4bit_autograd names gs v1 bits pre m' = .ok m' := by
  suffices H : ∀ (W : Nat) (pre : String) (m m' : MTree), m.weight < W →
      make_quant_for_4bit_autograd names gs v1 bits pre m = .ok m' →
      make_quant_for_4bit_autograd names gs v1 bits pre m' = .ok m' by
    intro pre m m' h
    exact H (m.weight + 1) pre m m' (Nat.lt_succ_self _) h
  intro W
  induction W with
  | zero =>
    intro pre m m' hW
    exact absurd hW (by omega)
  | succ W ih =>
    intro pre m m' hW hmk
    cases m with
    | quant q =>
      rw [make_quant_quant_eq] at hmk
      simp only [Except.ok.injEq] at hmk
      subst hmk
      exact make_quant_quant_eq names gs v1 bits pre q
    | linear i o w b =>
      rw [make_quant_linear_eq] at hmk
      simp only [Except.ok.injEq] at hmk
      subst hmk
      exact make_quant_linear_eq names gs v1 bits pre i o w b
    | container cs =>
      have hWcs : cs.weightL < W := by
        simp only [MTree.weight] at hW
        omega
      rw [make_quant_container_eq] at hmk
      cases h1 : replaceChildren names gs v1 bits pre cs with
      | error e => simp [h1] at hmk
      | ok cs1 =>
        simp only [h1] at hmk
        cases h2 : recurseChildren names gs v1 bits pre cs1 with
        | error e => simp [h2] at hmk
        | ok cs2 =>
          simp only [h2, Except.ok.injEq] at hmk
          subst hmk
          obtain ⟨hrepFix, hrecFix⟩ :=
            children_fix names gs v1 bits W ih pre cs cs1 cs2 hWcs h1 h2
          rw [make_quant_container_eq]
          simp only [hrepFix, hrecFix]

/-- Claim C3: applying the module-graph substitution twice with the same
target-name set (and the same construction parameters) yields the same module
tree as applying it once; the quantized-module guard stops recursion, so no
nested double-wrapping occurs. -/
theorem make_quant_idempotent (names : List String) (groupsize : Int)
    (is_v1_model : Bool) (bits : Nat) (m m1 : MTree)
    (h : make_quant_for_4bit_autograd names groupsize is_v1_model bits "" m = .ok m1) :
    make_quant_for_4bit_autograd names groupsize is_v1_model bits "" m1 = .ok m1 :=
  make_quant_idem_general names groupsize is_v1_model bits "" m m1 h

/-- Witness for C3: quantizing one targeted linear layer, then re-running the
substitution, leaves the quantized tree unchanged. -/
theorem make_quant_idempotent_witness :
    make_quant_for_4bit_autograd ["fc"] (-1) false 4 ""
        (.container (.cons "fc" (.quant (newQL 4 8 (-1) false 4)) .nil))
      = .ok (.container (.cons "fc" (.quant (newQL 4 8 (-1) false 4)) .nil)) := by
  apply make_quant_idempotent ["fc"] (-1) false 4
      (.container (.cons "fc" (.linear 4 8 ⟨.float32, .stored 0⟩ ⟨.float32, .stored 1⟩) .nil))
  simp [make_quant_for_4bit_autograd, replaceChildren, recurseChildren, qualName, featuresOf]
